import Mathlib

/-!
Verification of the data ingestion and synchronization pipeline of the
Jalisco tourism dashboard (`src/app.js`, class `TurismoDataManager`).

The JavaScript source is shallowly embedded:
* strings are `List Char` (one entry per UTF-16 code unit; all inputs in this
  development lie in the basic multilingual plane, where a Lean `Char` and a
  JavaScript code unit coincide);
* JavaScript numbers produced by `parseFloat` are modelled by `JSNum`:
  an exact rational (`finite`), the two infinities produced by the literal
  `Infinity`, or `nan`.  All rationals produced by the modelled `parseFloat`
  have a finite decimal expansion, and binary64 rounding is not modelled;
  none of the statements below depend on rounding;
* the stateful sync controller `updateData` becomes a pure step function on an
  explicit `ManagerState`, taking the outcome of the HTTP fetch as a
  parameter and returning the successor state together with the list of
  status reports written to the DOM indicator and the number of times the
  publish notification `updatePueblosMagicosMarkers` was invoked.
-/

/-- Model of JavaScript `String.prototype.trim` on `List Char`:
whitespace is stripped from both ends.  (`Char.isWhitespace` covers the
ASCII whitespace actually occurring in the data; the exotic extra code
points of the ECMAScript `TrimString` set are not modelled.) -/
def trimL (s : List Char) : List Char :=
  ((s.dropWhile Char.isWhitespace).reverse.dropWhile Char.isWhitespace).reverse

/-- End-of-row handling of `parseCSVText` (`src/app.js` lines 225-233 and
242-247): if there is a pending field or a pending row, the field is pushed
onto the row, and the row is appended to the output only when some field has
non-whitespace content (`currentRow.some(field => field.trim().length > 0)`).
JavaScript string truthiness of `currentField` is `currentField ≠ []`. -/
def closeRow (currentField : List Char) (currentRow : List (List Char))
    (rows : List (List (List Char))) : List (List (List Char)) :=
  if currentField ≠ [] ∨ currentRow ≠ [] then
    let newRow := currentRow ++ [currentField]
    if newRow.any (fun field => (trimL field).length > 0) then rows ++ [newRow]
    else rows
  else rows

/-- The character scan of `TurismoDataManager.parseCSVText`
(`src/app.js` lines 205-250), one constructor case per loop iteration.
The two-character lookaheads of the source (`nextChar` for the doubled
quote `""` and for the `\r\n` pair) are embedded as pattern matches on the
remaining input. -/
def parseRows : List Char → Bool → List Char → List (List Char) →
    List (List (List Char)) → List (List (List Char))
  | [], _, currentField, currentRow, rows => closeRow currentField currentRow rows
  | c :: cs, inQuotes, currentField, currentRow, rows =>
    if c = '"' then
      -- source: `if (inQuotes && nextChar === '"')` appends a literal quote and
      -- consumes both characters, otherwise the quote mode is toggled.  When the
      -- toggle consumes the last character, the loop exits and the end-of-input
      -- flush runs at once, which is the `closeRow` in the `[]` alternatives.
      match inQuotes, cs with
      | true, c2 :: cs2 =>
        if c2 = '"' then parseRows cs2 true (currentField ++ ['"']) currentRow rows
        else parseRows (c2 :: cs2) false currentField currentRow rows
      | true, [] => closeRow currentField currentRow rows
      | false, [] => closeRow currentField currentRow rows
      | false, c2 :: cs2 => parseRows (c2 :: cs2) true currentField currentRow rows
    else if c = ',' ∧ inQuotes = false then
      parseRows cs inQuotes [] (currentRow ++ [currentField]) rows
    else if (c = '\n' ∨ c = '\r') ∧ inQuotes = false then
      -- source: close the current row, then `if (char === '\r' && nextChar === '\n') i++`.
      -- When the line break is the last character, the loop exits and the
      -- end-of-input flush runs on the already-emptied pending state, a no-op.
      if c = '\r' then
        match cs with
        | c2 :: cs2 =>
          if c2 = '\n' then parseRows cs2 inQuotes [] [] (closeRow currentField currentRow rows)
          else parseRows (c2 :: cs2) inQuotes [] [] (closeRow currentField currentRow rows)
        | [] => closeRow currentField currentRow rows
      else
        parseRows cs inQuotes [] [] (closeRow currentField currentRow rows)
    else
      parseRows cs inQuotes (currentField ++ [c]) currentRow rows

/-- `TurismoDataManager.parseCSVText` (`src/app.js` lines 205-250): scan the
whole text starting outside quotes with empty pending field, row and output. -/
def parseCSVText (csvText : List Char) : List (List (List Char)) :=
  parseRows csvText false [] [] []

/-- Model of JavaScript `String.prototype.replace` with a one-character string
pattern, as in `latitudStr.replace(',', '.')`: only the first occurrence is
replaced. -/
def replaceFirst : List Char → Char → Char → List Char
  | [], _, _ => []
  | c :: cs, a, b => if c = a then b :: cs else c :: replaceFirst cs a b

/-- A JavaScript number as produced by `parseFloat`: an exact rational, an
infinity (from the literal `Infinity`), or `NaN`.  Binary64 rounding and
overflow to infinity are not modelled; every statement below is insensitive
to them. -/
inductive JSNum where
  | finite (q : ℚ)
  | posInf
  | negInf
  | nan
deriving DecidableEq

/-- Numeric value of a digit string (most significant digit first). -/
def digitsToNat (ds : List Char) : Nat :=
  ds.foldl (fun n c => 10 * n + (c.toNat - '0'.toNat)) 0

/-- The optional exponent part of an ECMAScript `StrDecimalLiteral`.  When the
characters after `e`/`E` do not form a valid exponent, the longest valid prefix
of the literal ends before the `e`, so the exponent contributed is `0`. -/
def expValue (r : List Char) : Int :=
  match r with
  | c :: rest =>
    if c = 'e' ∨ c = 'E' then
      let signedRest :=
        match rest with
        | '-' :: t => (true, t)
        | '+' :: t => (false, t)
        | _ => (false, rest)
      let ds := signedRest.2.takeWhile Char.isDigit
      if ds = [] then 0
      else if signedRest.1 then -(digitsToNat ds : Int)
      else (digitsToNat ds : Int)
    else 0
  | [] => 0

/-- The unsigned decimal part of an ECMAScript `StrDecimalLiteral`
(`Infinity` is handled separately): `digits [. digits] [exp]` or
`. digits [exp]`.  The result is `(mantissa, fractionLength, exponent)`, so
the denoted value is `mantissa / 10 ^ fractionLength * 10 ^ exponent`.
`none` means no valid prefix exists, which `parseFloat` turns into `NaN`. -/
def parseDecimal (r : List Char) : Option (Nat × Nat × Int) :=
  let ip := r.takeWhile Char.isDigit
  let r1 := r.dropWhile Char.isDigit
  match ip, r1 with
  | [], '.' :: r2 =>
    let fp := r2.takeWhile Char.isDigit
    if fp = [] then none
    else some (digitsToNat fp, fp.length, expValue (r2.dropWhile Char.isDigit))
  | [], _ => none
  | _ :: _, '.' :: r2 =>
    let fp := r2.takeWhile Char.isDigit
    some (digitsToNat (ip ++ fp), fp.length, expValue (r2.dropWhile Char.isDigit))
  | _ :: _, _ => some (digitsToNat ip, 0, expValue r1)

/-- Model of the ECMAScript `parseFloat` built-in as used on the coordinate
strings: strip leading whitespace, read an optional sign, then either the
literal `Infinity` or the longest valid decimal-literal prefix; if no valid
prefix exists the result is `NaN`.  The denoted rational
`± mantissa / 10 ^ fractionLength * 10 ^ exponent` is assembled as one
`mkRat`. -/
def parseFloatL (input : List Char) : JSNum :=
  let t := input.dropWhile Char.isWhitespace
  let signed :=
    match t with
    | '-' :: rest => (true, rest)
    | '+' :: rest => (false, rest)
    | _ => (false, t)
  if "Infinity".data.isPrefixOf signed.2 then
    if signed.1 then JSNum.negInf else JSNum.posInf
  else
    match parseDecimal signed.2 with
    | none => JSNum.nan
    | some (m, fl, e) =>
      let num : Int := (if signed.1 then -(m : Int) else (m : Int)) * 10 ^ e.toNat
      let den : Nat := 10 ^ (fl + (-e).toNat)
      JSNum.finite (mkRat num den)

/-- One validated tourism record, the object literal built in
`TurismoDataManager.parseCSVData` (`src/app.js` lines 184-193). -/
structure Pueblo where
  nombre : List Char
  latitud : JSNum
  longitud : JSNum
  seguridad : List Char
  securityTips : List Char
  distancia : List Char
  ruta : List Char
  linkTurismo : List Char
deriving DecidableEq

/-- Field extraction in `parseCSVData`:
`idx >= 0 && idx < row.length ? row[idx].trim() : ''` (the indices are
constant naturals, so `idx >= 0` always holds). -/
def getField (row : List (List Char)) (idx : Nat) : List Char :=
  if idx < row.length then trimL (row.getD idx []) else []

/-- Loop body of `TurismoDataManager.parseCSVData` (`src/app.js` lines
164-200) for one data row, with the fixed column positions
`nombre = 1`, `latitud = 2`, `longitud = 3`, `seguridad = 4`,
`distancia = 5`, `ruta = 6`, `linkTurismo = 7`, `securityTips = 8`.
`none` means the row is skipped.  The source's `try/catch` around the body
never fires (no statement in the body throws), and `||`-defaulting on the
optional fields tests for the empty string. -/
def processRow (row : List (List Char)) : Option Pueblo :=
  let nombre := getField row 1
  let latitudStr := getField row 2
  let longitudStr := getField row 3
  let seguridad := getField row 4
  let distancia := getField row 5
  let ruta := getField row 6
  let linkTurismo := getField row 7
  let securityTips := getField row 8
  if nombre = [] ∨ latitudStr = [] ∨ longitudStr = [] then none
  else
    let latitud := parseFloatL (replaceFirst latitudStr ',' '.')
    let longitud := parseFloatL (replaceFirst longitudStr ',' '.')
    if latitud = JSNum.nan ∨ longitud = JSNum.nan then none
    else some
      { nombre := nombre
        latitud := latitud
        longitud := longitud
        seguridad := if seguridad = [] then "Información no disponible".data else seguridad
        securityTips := if securityTips = [] then "Information not available".data else securityTips
        distancia := if distancia = [] then "N/A".data else distancia
        ruta := if ruta = [] then "#".data else ruta
        linkTurismo := if linkTurismo = [] then "#".data else linkTurismo }

/-- `TurismoDataManager.parseCSVData` (`src/app.js` lines 147-203): tokenize,
require at least a header row and one data row, then normalize each data row,
skipping invalid ones.  (The `headers` array computed from row 0 in the source
is never used for field extraction.) -/
def parseCSVData (csvText : List Char) : List Pueblo :=
  let rows := parseCSVText csvText
  if rows.length < 2 then []
  else (rows.drop 1).filterMap processRow

/-- One hexadecimal digit, for the JSON `\u00XX` escapes of control
characters. -/
def hexDigit (n : Nat) : Char :=
  if n < 10 then Char.ofNat ('0'.toNat + n) else Char.ofNat ('a'.toNat + (n - 10))

/-- Character escaping of the ECMAScript `JSON.stringify` `QuoteJSONString`
operation: quote, backslash and the named control escapes, `\u00XX` for the
remaining control characters, every other character literal. -/
def jsonEscapeChar (c : Char) : List Char :=
  if c = '"' then ['\\', '"']
  else if c = '\\' then ['\\', '\\']
  else if c = '\n' then ['\\', 'n']
  else if c = '\r' then ['\\', 'r']
  else if c = '\t' then ['\\', 't']
  else if c.toNat = 8 then ['\\', 'b']
  else if c.toNat = 12 then ['\\', 'f']
  else if c.toNat < 32 then
    ['\\', 'u', '0', '0', hexDigit (c.toNat / 16), hexDigit (c.toNat % 16)]
  else [c]

/-- A JSON string literal: the escaped characters wrapped in quotes. -/
def jsonString (s : List Char) : List Char :=
  '"' :: s.flatMap jsonEscapeChar ++ ['"']

/-- Smallest `k` with `den ∣ 10 ^ k` (defaulting to `0` when none exists up to
`den`, which cannot happen for the denominators produced by `parseFloatL`,
all of the form `2 ^ a * 5 ^ b`). -/
def decExpOf (den : Nat) : Nat :=
  (((List.range (den + 1)).find? fun k => 10 ^ k % den = 0).getD 0)

/-- Decimal rendering of a rational with finite decimal expansion, matching
the ECMAScript number-to-string conversion on such values: minimal number of
fraction digits, no exponent notation.  Model restriction: JavaScript switches
to exponent notation outside `[1e-6, 1e21)` and rounds to binary64; neither is
modelled, and no statement below depends on a rendered number. -/
def ratToChars (q : ℚ) : List Char :=
  let sign : List Char := if q.num < 0 then ['-'] else []
  let k := decExpOf q.den
  let scaled := q.num.natAbs * 10 ^ k / q.den
  let ipDigits := Nat.toDigits 10 (scaled / 10 ^ k)
  let fpDigits := Nat.toDigits 10 (scaled % 10 ^ k)
  if k = 0 then sign ++ ipDigits
  else sign ++ ipDigits ++ '.' :: (List.replicate (k - fpDigits.length) '0' ++ fpDigits)

/-- JSON rendering of a JavaScript number: `JSON.stringify` turns `NaN` and
the infinities into `null`. -/
def jsonNum : JSNum → List Char
  | JSNum.finite q => ratToChars q
  | JSNum.posInf => "null".data
  | JSNum.negInf => "null".data
  | JSNum.nan => "null".data

/-- `JSON.stringify` of one record object, keys in the insertion order of the
object literal of `parseCSVData` (`src/app.js` lines 184-193). -/
def jsonPueblo (p : Pueblo) : List Char :=
  "\x7b\"nombre\":".data ++ jsonString p.nombre ++
  ",\"latitud\":".data ++ jsonNum p.latitud ++
  ",\"longitud\":".data ++ jsonNum p.longitud ++
  ",\"seguridad\":".data ++ jsonString p.seguridad ++
  ",\"securityTips\":".data ++ jsonString p.securityTips ++
  ",\"distancia\":".data ++ jsonString p.distancia ++
  ",\"ruta\":".data ++ jsonString p.ruta ++
  ",\"linkTurismo\":".data ++ jsonString p.linkTurismo ++
  "\x7d".data

/-- `JSON.stringify(newData)` for the array of parsed records. -/
def jsonStringifyPueblos (ps : List Pueblo) : List Char :=
  '[' :: List.intercalate [','] (ps.map jsonPueblo) ++ [']']

/-- ECMAScript `ToInt32`: reduce an integer into `[-2 ^ 31, 2 ^ 31)`. -/
def toInt32 (n : Int) : Int :=
  (n + 2 ^ 31) % 2 ^ 32 - 2 ^ 31

/-- One step of the rolling hash in `updateData` (`src/app.js` lines 103-106):
`a = ((a << 5) - a) + b.charCodeAt(0); return a & a`.  `a << 5` is the 32-bit
shift `toInt32 (toInt32 a * 2 ^ 5)`; the subtraction and the addition of the
code unit are exact; `a & a` coerces the result back to a 32-bit integer. -/
def hashStep (a : Int) (c : Char) : Int :=
  toInt32 (toInt32 (toInt32 a * 2 ^ 5) - a + (c.toNat : Int))

/-- The rolling hash of `updateData`: fold `hashStep` over the serialized
dataset starting from `0` (the `reduce` initial value). -/
def hashString (s : List Char) : Int :=
  s.foldl hashStep 0

/-- The fingerprint computed in `updateData` (`src/app.js` lines 103-106):
the rolling hash of `JSON.stringify(newData)`. -/
def computeHash (d : List Pueblo) : Int :=
  hashString (jsonStringifyPueblos d)

/-- The snapshot object built in the accepted branch of `updateData`
(`src/app.js` lines 109-112): start from a fresh empty object and assign
`turismoDatos[pueblo.nombre] = pueblo` for each record in order, so a later
record overwrites an earlier one with the same name. -/
def buildMap (data : List Pueblo) : List Char → Option Pueblo :=
  data.foldl (fun m p => fun k => if k = p.nombre then some p else m k)
    (fun _ => none)

/-- The mutable state of `TurismoDataManager` relevant to a sync cycle:
the process-wide snapshot `turismoDatos`, `lastDataHash` (`null` before the
first accepted update), and the mutual-exclusion flag `isUpdating`. -/
structure ManagerState where
  turismoDatos : List Char → Option Pueblo
  lastDataHash : Option Int
  isUpdating : Bool

/-- Outcome of `fetchDataFromGoogleSheets`' HTTP request: the response body
text, or a network error / non-ok response status (both re-thrown by the
fetch helper, `src/app.js` lines 132-145). -/
inductive FetchOutcome where
  | ok (csvText : List Char)
  | fetchError

/-- Observable result of one `updateData` call: the successor state, the
`(icon, text)` pairs written to the status indicator in order, and how often
the publish notification `updatePueblosMagicosMarkers` was invoked.
(`typeof updatePueblosMagicosMarkers === 'function'` is statically true in
this script, so the guarded call always happens.) -/
structure CycleResult where
  state : ManagerState
  reports : List (String × String)
  publishCount : Nat

/-- `TurismoDataManager.updateData` (`src/app.js` lines 93-130) as a step
function.  If `isUpdating` is set, return immediately.  Otherwise set the
flag, fetch; on error report `('❌', 'Error de conexión')` and leave the data
untouched; on success parse, hash (`newHash !== this.lastDataHash` is true
whenever `lastDataHash` is still `null`), and either replace the snapshot
wholesale, store the new hash and publish, or report no change.  The flag is
cleared on every path, so the returned state has `isUpdating = false` except
in the re-entrant no-op case. -/
def updateData (st : ManagerState) (manual : Bool) (fetch : FetchOutcome) :
    CycleResult :=
  if st.isUpdating then ⟨st, [], 0⟩
  else
    let preReports : List (String × String) :=
      if manual then [("🔄", "Actualizando datos...")] else []
    match fetch with
    | FetchOutcome.fetchError =>
      ⟨⟨st.turismoDatos, st.lastDataHash, false⟩,
        preReports ++ [("❌", "Error de conexión")], 0⟩
    | FetchOutcome.ok csvText =>
      let newData := parseCSVData csvText
      let newHash := computeHash newData
      if some newHash ≠ st.lastDataHash ∨ manual = true then
        ⟨⟨buildMap newData, some newHash, false⟩,
          preReports ++ [("🟢", "Datos actualizados")], 1⟩
      else
        ⟨⟨st.turismoDatos, st.lastDataHash, false⟩,
          preReports ++ [("🟢", "Sin cambios")], 0⟩

/-- Standard CSV escaping of one field value: double every quote. -/
def csvEscape (s : List Char) : List Char :=
  s.flatMap fun c => if c = '"' then ['"', '"'] else [c]

/-- Standard CSV encoding of one field value: escape and wrap in quotes. -/
def csvEncode (s : List Char) : List Char :=
  '"' :: (csvEscape s ++ ['"'])

/-- A CSV text whose single data row is accepted: the source reads fields at
the fixed positions `nombre = 1`, `latitud = 2`, `longitud = 3`, so the data
columns are preceded by a padding column at position 0. -/
def sampleCSV : List Char := ",Name,Lat,Lon\n,Ajijic,20.3,-103.25\n".data

/-- The record `parseCSVData` produces from `sampleCSV`. -/
def samplePueblo : Pueblo :=
  { nombre := "Ajijic".data, latitud := JSNum.finite (mkRat 203 10),
    longitud := JSNum.finite (mkRat (-413) 4),
    seguridad := "Información no disponible".data,
    securityTips := "Information not available".data,
    distancia := "N/A".data, ruta := "#".data, linkTurismo := "#".data }

lemma toInt32_mem (n : Int) : -2 ^ 31 ≤ toInt32 n ∧ toInt32 n < 2 ^ 31 := by
  unfold toInt32
  have h1 : 0 ≤ (n + 2 ^ 31) % 2 ^ 32 := Int.emod_nonneg _ (by norm_num)
  have h2 : (n + 2 ^ 31) % 2 ^ 32 < 2 ^ 32 := Int.emod_lt_of_pos _ (by norm_num)
  omega

lemma foldl_hashStep_range (s : List Char) (a : Int)
    (h : -2 ^ 31 ≤ a ∧ a < 2 ^ 31) :
    -2 ^ 31 ≤ s.foldl hashStep a ∧ s.foldl hashStep a < 2 ^ 31 := by
  induction s generalizing a with
  | nil => exact h
  | cons c s ih =>
    rw [List.foldl_cons]
    exact ih _ (toInt32_mem _)

/-- C10: for every dataset, the fingerprint computed inside `updateData` is a
signed 32-bit integer: every `hashStep` ends with the `a & a` coercion
(`toInt32`), and the empty-serialization hash is the initial value `0`, so
the fold stays in `[-2 ^ 31, 2 ^ 31 - 1]` and the comparison with the
last-accepted fingerprint is exact integer equality on this range. -/
theorem computeHash_int32_range (newData : List Pueblo) :
    -2 ^ 31 ≤ computeHash newData ∧ computeHash newData ≤ 2 ^ 31 - 1 := by
  unfold computeHash hashString
  have h := foldl_hashStep_range (jsonStringifyPueblos newData) 0 (by norm_num)
  exact ⟨h.1, by omega⟩

/-- C4: an `updateData` call made while `isUpdating` is already set is a
complete no-op: the state (snapshot, fingerprint, flag) is returned
untouched, no status is reported and nothing is published — and the result
does not depend on the fetch outcome, so the fetch path is never entered. -/
theorem updateData_reentrant_noop (st : ManagerState) (manual : Bool)
    (fetch : FetchOutcome) (h : st.isUpdating = true) :
    updateData st manual fetch = ⟨st, [], 0⟩ := by
  simp [updateData, h]

theorem updateData_reentrant_noop_witness :
    (ManagerState.mk (fun _ => none) none true).isUpdating = true ∧
    updateData (ManagerState.mk (fun _ => none) none true) true
        FetchOutcome.fetchError = ⟨ManagerState.mk (fun _ => none) none true, [], 0⟩ :=
  ⟨rfl, updateData_reentrant_noop _ _ _ rfl⟩

/-- C3: a cycle whose fetch fails leaves the snapshot and the last-accepted
fingerprint exactly as they were, reports the connection-error status as the
final status, publishes nothing, and releases `isUpdating`.  (`updateData`
is a total function in this model: the `catch` block swallows the error, so
the polling loop is never terminated.) -/
theorem updateData_fetch_error_keeps_snapshot (st : ManagerState) (manual : Bool)
    (h : st.isUpdating = false) :
    (updateData st manual FetchOutcome.fetchError).state.turismoDatos = st.turismoDatos ∧
    (updateData st manual FetchOutcome.fetchError).state.lastDataHash = st.lastDataHash ∧
    (updateData st manual FetchOutcome.fetchError).state.isUpdating = false ∧
    (updateData st manual FetchOutcome.fetchError).reports.getLast? =
      some ("❌", "Error de conexión") ∧
    (updateData st manual FetchOutcome.fetchError).publishCount = 0 := by
  cases manual <;> simp [updateData, h]

theorem updateData_fetch_error_keeps_snapshot_witness :
    (ManagerState.mk (fun _ => none) (some 7) false).isUpdating = false ∧
    ((updateData (ManagerState.mk (fun _ => none) (some 7) false) false
        FetchOutcome.fetchError).state.lastDataHash = some 7 ∧
      (updateData (ManagerState.mk (fun _ => none) (some 7) false) false
        FetchOutcome.fetchError).state.isUpdating = false) :=
  ⟨rfl,
    ((updateData_fetch_error_keeps_snapshot _ false rfl).2.1.trans rfl),
    (updateData_fetch_error_keeps_snapshot _ false rfl).2.2.1⟩

/-- C1: change detection in `updateData`.  On a successful fetch, if the new
fingerprint equals the last-accepted one and the trigger is not manual, the
cycle reports `Sin cambios` and both the snapshot and the fingerprint are the
untouched pre-cycle values; if the fingerprints differ or the trigger is
manual, the snapshot is replaced wholesale by the mapping built from the new
dataset, the fingerprint is updated, and the publish notification runs
exactly once. -/
theorem updateData_change_detection (st : ManagerState) (csvText : List Char)
    (manual : Bool) (h : st.isUpdating = false) :
    ((some (computeHash (parseCSVData csvText)) = st.lastDataHash ∧ manual = false) →
      (updateData st manual (FetchOutcome.ok csvText)).state.turismoDatos = st.turismoDatos ∧
      (updateData st manual (FetchOutcome.ok csvText)).state.lastDataHash = st.lastDataHash ∧
      (updateData st manual (FetchOutcome.ok csvText)).reports = [("🟢", "Sin cambios")] ∧
      (updateData st manual (FetchOutcome.ok csvText)).publishCount = 0) ∧
    ((some (computeHash (parseCSVData csvText)) ≠ st.lastDataHash ∨ manual = true) →
      (updateData st manual (FetchOutcome.ok csvText)).state.turismoDatos =
        buildMap (parseCSVData csvText) ∧
      (updateData st manual (FetchOutcome.ok csvText)).state.lastDataHash =
        some (computeHash (parseCSVData csvText)) ∧
      (updateData st manual (FetchOutcome.ok csvText)).publishCount = 1) := by
  constructor
  · rintro ⟨h1, h2⟩
    subst h2
    simp [updateData, h, h1]
  · intro hc
    simp only [updateData, h, Bool.false_eq_true, if_false, if_pos hc]
    simp

theorem updateData_change_detection_witness :
    (ManagerState.mk (buildMap (parseCSVData sampleCSV))
        (some (computeHash (parseCSVData sampleCSV))) false).isUpdating = false ∧
    (updateData (ManagerState.mk (buildMap (parseCSVData sampleCSV))
        (some (computeHash (parseCSVData sampleCSV))) false) false
        (FetchOutcome.ok sampleCSV)).reports = [("🟢", "Sin cambios")] :=
  ⟨rfl, ((updateData_change_detection _ sampleCSV false rfl).1 ⟨rfl, rfl⟩).2.2.1⟩

lemma foldl_assign_eq_getLast_filter (d : List Pueblo)
    (m : List Char → Option Pueblo) (k : List Char) :
    (d.foldl (fun m p => fun k => if k = p.nombre then some p else m k) m) k =
      ((d.filter fun p => p.nombre = k).getLast?).or (m k) := by
  induction d generalizing m with
  | nil => simp
  | cons p d ih =>
    rw [List.foldl_cons, ih, List.filter_cons]
    by_cases hk : p.nombre = k
    · subst hk
      rw [if_pos rfl, if_pos (by simp)]
      match hl : d.filter (fun q => q.nombre = p.nombre) with
      | [] => simp [hl]
      | q :: t =>
        rw [hl, List.getLast?_cons_cons,
          List.getLast?_eq_getLast (q :: t) (by simp)]
        simp
    · have hk2 : ¬(k = p.nombre) := fun hkk => hk hkk.symm
      simp [hk, hk2]

lemma buildMap_eq_getLast_filter (d : List Pueblo) (k : List Char) :
    buildMap d k = (d.filter fun p => p.nombre = k).getLast? := by
  unfold buildMap
  rw [foldl_assign_eq_getLast_filter]
  simp

/-- C8: after an accepted update, the snapshot maps every name to the last
record bearing that name in parse order (last-writer-wins for duplicate names
within one parse), and the set of populated keys is exactly the set of names
occurring in the dataset. -/
theorem updateData_snapshot_last_writer_wins (st : ManagerState)
    (csvText : List Char) (manual : Bool) (h : st.isUpdating = false)
    (hacc : some (computeHash (parseCSVData csvText)) ≠ st.lastDataHash ∨ manual = true)
    (k : List Char) :
    (updateData st manual (FetchOutcome.ok csvText)).state.turismoDatos k =
      ((parseCSVData csvText).filter fun p => p.nombre = k).getLast? ∧
    (((updateData st manual (FetchOutcome.ok csvText)).state.turismoDatos k).isSome ↔
      k ∈ (parseCSVData csvText).map fun p => p.nombre) := by
  have hsnap : (updateData st manual (FetchOutcome.ok csvText)).state.turismoDatos =
      buildMap (parseCSVData csvText) := by
    simp only [updateData, h, Bool.false_eq_true, if_false, if_pos hacc]
  rw [hsnap, buildMap_eq_getLast_filter]
  refine ⟨rfl, ?_⟩
  rw [List.getLast?_isSome]
  constructor
  · intro hne
    rcases List.exists_mem_of_ne_nil _ hne with ⟨p, hp⟩
    have hmem := List.mem_filter.mp hp
    exact List.mem_map.mpr ⟨p, hmem.1, by simpa using hmem.2⟩
  · intro hmem
    rcases List.mem_map.mp hmem with ⟨p, hp, hname⟩
    intro hnil
    have : p ∈ (parseCSVData csvText).filter fun p => p.nombre = k :=
      List.mem_filter.mpr ⟨hp, by simpa using hname⟩
    simp [hnil] at this

theorem updateData_snapshot_last_writer_wins_witness :
    (ManagerState.mk (fun _ => none) none false).isUpdating = false ∧
    (some (computeHash (parseCSVData sampleCSV)) ≠
        (ManagerState.mk (fun _ => none) none false).lastDataHash ∨ true = true) ∧
    (updateData (ManagerState.mk (fun _ => none) none false) true
        (FetchOutcome.ok sampleCSV)).state.turismoDatos "Ajijic".data =
      ((parseCSVData sampleCSV).filter fun p => p.nombre = "Ajijic".data).getLast? :=
  ⟨rfl, Or.inr rfl,
    (updateData_snapshot_last_writer_wins _ sampleCSV true rfl (Or.inr rfl)
      "Ajijic".data).1⟩

/-- C5 (amended): a data row contributes no record exactly when its trimmed
name, latitude or longitude field is empty, or when parsing a coordinate
(after rewriting the first decimal comma to a point) yields `NaN`; hence
every produced record has a non-empty name and non-`NaN` numeric
coordinates.  (The source checks `isNaN` only, so non-finite non-`NaN`
values such as `Infinity` are accepted — see the counterexample.) -/
theorem parseCSVData_row_validation :
    (∀ row : List (List Char),
      (processRow row = none ↔
        getField row 1 = [] ∨ getField row 2 = [] ∨ getField row 3 = [] ∨
        parseFloatL (replaceFirst (getField row 2) ',' '.') = JSNum.nan ∨
        parseFloatL (replaceFirst (getField row 3) ',' '.') = JSNum.nan)) ∧
    (∀ csvText : List Char, ∀ p ∈ parseCSVData csvText,
      p.nombre ≠ [] ∧ p.latitud ≠ JSNum.nan ∧ p.longitud ≠ JSNum.nan) := by
  have hchar : ∀ row : List (List Char),
      (processRow row = none ↔
        getField row 1 = [] ∨ getField row 2 = [] ∨ getField row 3 = [] ∨
        parseFloatL (replaceFirst (getField row 2) ',' '.') = JSNum.nan ∨
        parseFloatL (replaceFirst (getField row 3) ',' '.') = JSNum.nan) := by
    intro row
    simp only [processRow]
    by_cases h1 : getField row 1 = [] ∨ getField row 2 = [] ∨ getField row 3 = []
    · rw [if_pos h1]
      exact ⟨fun _ => by tauto, fun _ => rfl⟩
    · rw [if_neg h1]
      by_cases h2 : parseFloatL (replaceFirst (getField row 2) ',' '.') = JSNum.nan ∨
          parseFloatL (replaceFirst (getField row 3) ',' '.') = JSNum.nan
      · rw [if_pos h2]
        exact ⟨fun _ => by tauto, fun _ => rfl⟩
      · rw [if_neg h2]
        simp only [reduceCtorEq, false_iff]
        push_neg
        push_neg at h1 h2
        exact ⟨h1.1, h1.2.1, h1.2.2, h2.1, h2.2⟩
  refine ⟨hchar, ?_⟩
  intro csvText p hp
  simp only [parseCSVData] at hp
  split at hp
  · simp at hp
  · rcases List.mem_filterMap.mp hp with ⟨row, _, heq⟩
    simp only [processRow] at heq
    split at heq
    · simp at heq
    · split at heq
      · simp at heq
      · rename_i hval hnan
        push_neg at hval hnan
        rcases Option.some.inj heq with rfl
        exact ⟨hval.1, hnan.1, hnan.2⟩

theorem parseCSVData_row_validation_witness :
    samplePueblo ∈ parseCSVData sampleCSV ∧
    (samplePueblo.nombre ≠ [] ∧ samplePueblo.latitud ≠ JSNum.nan ∧
      samplePueblo.longitud ≠ JSNum.nan) :=
  ⟨by decide, parseCSVData_row_validation.2 sampleCSV samplePueblo (by decide)⟩

/-- C5 fails as stated on the source: the latitude string `Infinity` parses
to a non-finite (but non-`NaN`) value, yet the row is accepted and its record
carries an infinite latitude, because the source only checks `isNaN`. -/
theorem parseCSVData_accepts_infinite_latitude :
    (parseCSVData "a,b,c,d\nx,Ajijic,Infinity,-103.25\n".data).map
      (fun p => p.latitud) = [JSNum.posInf] := by decide

/-- C7 fails as stated on the source: with the column mapping of the claim
(`name = 0`, `lat = 1`, `lon = 2`) the example text has no field at the fixed
longitude position 3, so the data row is skipped and the output is empty,
not a single record. -/
theorem parseCSVData_claimed_example_is_empty :
    parseCSVData "Name,Lat,Lon\nAjijic,20.3,-103.25\n".data = [] := by decide

/-- C7 (amended): with the fixed column mapping actually used by the source
(`nombre = 1`, `latitud = 2`, `longitud = 3`), the example text (padded with
a leading column) normalizes to exactly one record with name `Ajijic`,
latitude `20.3`, longitude `-103.25`, distance label `N/A` and the sentinel
`#` for both URLs. -/
theorem parseCSVData_example_fixed_columns :
    parseCSVData sampleCSV = [samplePueblo] := by decide

lemma trimL_eq_nil_iff (s : List Char) :
    trimL s = [] ↔ ∀ c ∈ s, c.isWhitespace = true := by
  unfold trimL
  constructor
  · intro h c hc
    rw [List.reverse_eq_nil_iff, List.dropWhile_eq_nil_iff] at h
    rcases List.mem_append.mp
        ((List.takeWhile_append_dropWhile (p := Char.isWhitespace) (l := s)) ▸ hc) with
      h1 | h2
    · exact List.mem_takeWhile_imp h1
    · exact h c (List.mem_reverse.mpr h2)
  · intro h
    have hdrop : s.dropWhile Char.isWhitespace = [] :=
      List.dropWhile_eq_nil_iff.mpr fun c hc => h c hc
    simp [hdrop]

lemma trimL_ne_nil_of_mem (s : List Char) (c : Char) (hc : c ∈ s)
    (hw : c.isWhitespace = false) : trimL s ≠ [] := by
  intro h
  have := (trimL_eq_nil_iff s).mp h c hc
  rw [hw] at this
  exact Bool.false_ne_true this

lemma closeRow_nonblank (f : List Char) (r : List (List Char))
    (rows : List (List (List Char)))
    (h : ∀ row ∈ rows, row.any (fun fld => (trimL fld).length > 0) = true) :
    ∀ row ∈ closeRow f r rows, row.any (fun fld => (trimL fld).length > 0) = true := by
  intro row hrow
  simp only [closeRow] at hrow
  split at hrow
  · split at hrow
    · rename_i hguard
      rcases List.mem_append.mp hrow with h1 | h2
      · exact h row h1
      · rw [List.mem_singleton.mp h2]
        exact hguard
    · exact h row hrow
  · exact h row hrow

lemma parseRows_nil (q : Bool) (f : List Char) (r : List (List Char))
    (rows : List (List (List Char))) :
    parseRows [] q f r rows = closeRow f r rows := rfl

lemma parseRows_quote_escape (cs : List Char) (f : List Char)
    (r : List (List Char)) (rows : List (List (List Char))) :
    parseRows ('"' :: '"' :: cs) true f r rows =
      parseRows cs true (f ++ ['"']) r rows := rfl

lemma parseRows_quote_last (q : Bool) (f : List Char) (r : List (List Char))
    (rows : List (List (List Char))) :
    parseRows ['"'] q f r rows = closeRow f r rows := by
  cases q <;> rfl

lemma parseRows_quote_open (c2 : Char) (cs : List Char) (f : List Char)
    (r : List (List Char)) (rows : List (List (List Char))) :
    parseRows ('"' :: c2 :: cs) false f r rows =
      parseRows (c2 :: cs) true f r rows := rfl

lemma parseRows_quote_close (c2 : Char) (cs : List Char) (f : List Char)
    (r : List (List Char)) (rows : List (List (List Char))) (hne : c2 ≠ '"') :
    parseRows ('"' :: c2 :: cs) true f r rows =
      parseRows (c2 :: cs) false f r rows := by
  show (if c2 = '"' then parseRows cs true (f ++ ['"']) r rows
    else parseRows (c2 :: cs) false f r rows) = parseRows (c2 :: cs) false f r rows
  rw [if_neg hne]

lemma parseRows_comma (cs : List Char) (f : List Char) (r : List (List Char))
    (rows : List (List (List Char))) :
    parseRows (',' :: cs) false f r rows =
      parseRows cs false [] (r ++ [f]) rows := by
  rw [parseRows.eq_def]
  simp

lemma parseRows_lf (cs : List Char) (f : List Char) (r : List (List Char))
    (rows : List (List (List Char))) :
    parseRows ('\n' :: cs) false f r rows =
      parseRows cs false [] [] (closeRow f r rows) := by
  rw [parseRows.eq_def]
  simp

lemma parseRows_crlf (cs : List Char) (f : List Char) (r : List (List Char))
    (rows : List (List (List Char))) :
    parseRows ('\r' :: '\n' :: cs) false f r rows =
      parseRows cs false [] [] (closeRow f r rows) := rfl

lemma parseRows_cr_last (f : List Char) (r : List (List Char))
    (rows : List (List (List Char))) :
    parseRows ['\r'] false f r rows = closeRow f r rows := rfl

lemma parseRows_cr_other (c2 : Char) (cs : List Char) (f : List Char)
    (r : List (List Char)) (rows : List (List (List Char))) (hne : c2 ≠ '\n') :
    parseRows ('\r' :: c2 :: cs) false f r rows =
      parseRows (c2 :: cs) false [] [] (closeRow f r rows) := by
  show (if c2 = '\n' then parseRows cs false [] [] (closeRow f r rows)
      else parseRows (c2 :: cs) false [] [] (closeRow f r rows)) =
    parseRows (c2 :: cs) false [] [] (closeRow f r rows)
  rw [if_neg hne]

lemma parseRows_other (c : Char) (cs : List Char) (q : Bool) (f : List Char)
    (r : List (List Char)) (rows : List (List (List Char)))
    (h1 : ¬c = '"') (h2 : ¬(c = ',' ∧ q = false))
    (h3 : ¬((c = '\n' ∨ c = '\r') ∧ q = false)) :
    parseRows (c :: cs) q f r rows =
      parseRows cs q (f ++ [c]) r rows := by
  rw [parseRows.eq_def]
  simp [h1, h2, h3]

lemma parseRows_nonblank (cs : List Char) (q : Bool) (f : List Char)
    (r : List (List Char)) (rows : List (List (List Char))) :
    (∀ row ∈ rows, row.any (fun fld => (trimL fld).length > 0) = true) →
    ∀ row ∈ parseRows cs q f r rows,
      row.any (fun fld => (trimL fld).length > 0) = true := by
  induction cs, q, f, r, rows using parseRows.induct with
  | case1 q f r rows => rw [parseRows_nil]; exact fun h => closeRow_nonblank f r rows h
  | case2 f r rows cs2 ih => rw [parseRows_quote_escape]; exact fun h => ih h
  | case3 f r rows c2 cs2 hne ih =>
    rw [parseRows_quote_close c2 cs2 f r rows hne]
    exact fun h => ih h
  | case4 f r rows =>
    rw [parseRows_quote_last]
    exact fun h => closeRow_nonblank f r rows h
  | case5 f r rows =>
    rw [parseRows_quote_last]
    exact fun h => closeRow_nonblank f r rows h
  | case6 f r rows c2 cs2 ih => rw [parseRows_quote_open]; exact fun h => ih h
  | case7 c cs q f r rows h1 h2 ih =>
    obtain ⟨hc, hq⟩ := h2
    subst hc
    subst hq
    rw [parseRows_comma]
    exact fun h => ih h
  | case8 q f r rows cs2 h1 h2 h3 ih =>
    obtain ⟨-, hq⟩ := h3
    subst hq
    rw [parseRows_crlf]
    exact fun h => ih (closeRow_nonblank f r rows h)
  | case9 q f r rows c2 cs2 hne h1 h2 h3 ih =>
    obtain ⟨-, hq⟩ := h3
    subst hq
    rw [parseRows_cr_other c2 cs2 f r rows hne]
    exact fun h => ih (closeRow_nonblank f r rows h)
  | case10 q f r rows h1 h2 h3 =>
    obtain ⟨-, hq⟩ := h3
    subst hq
    rw [parseRows_cr_last]
    exact fun h => closeRow_nonblank f r rows h
  | case11 c cs q f r rows h1 h2 h3 h4 ih =>
    obtain ⟨hor, hq⟩ := h3
    subst hq
    rcases hor with hc | hc
    · subst hc
      rw [parseRows_lf]
      exact fun h => ih (closeRow_nonblank f r rows h)
    · exact absurd hc h4
  | case12 c cs q f r rows h1 h2 h3 ih =>
    rw [parseRows_other c cs q f r rows h1 h2 h3]
    exact fun h => ih h

/-- C6: every row emitted by `parseCSVText` — including the pending row
flushed at end of input — contains at least one field with non-whitespace
content, i.e. a row whose fields are all empty or whitespace-only is
discarded; in particular a header row followed by blank lines produces zero
data records through `parseCSVData`. -/
theorem parseCSVText_blank_row_suppression :
    (∀ csvText : List Char, ∀ row ∈ parseCSVText csvText,
      row.any (fun fld => (trimL fld).length > 0) = true) ∧
    parseCSVData "Name,Lat,Lon\n\n   \n\t\n".data = [] := by
  refine ⟨?_, by decide⟩
  intro csvText row hrow
  exact parseRows_nonblank csvText false [] [] [] (by simp) row hrow

theorem parseCSVText_blank_row_suppression_witness :
    (["ab".data, ([] : List Char)] ∈ parseCSVText "ab,\n".data) ∧
    ["ab".data, ([] : List Char)].any (fun fld => (trimL fld).length > 0) = true :=
  ⟨by decide, parseCSVText_blank_row_suppression.1 "ab,\n".data _ (by decide)⟩

lemma parseRows_quoted_noquote (s : List Char) (acc : List Char)
    (r : List (List Char)) (rows : List (List (List Char))) (h : '"' ∉ s) :
    parseRows s true acc r rows = closeRow (acc ++ s) r rows := by
  induction s generalizing acc with
  | nil => rw [parseRows_nil]; simp
  | cons c s ih =>
    have hc : ¬c = '"' := fun hcc => h (hcc ▸ List.mem_cons_self c s)
    rw [parseRows_other c s true acc r rows hc (by simp) (by simp),
      ih (acc ++ [c]) (fun hs => h (List.mem_cons_of_mem c hs))]
    simp

lemma parseRows_quoted_escape_scan (s : List Char) (tail : List Char)
    (acc : List Char) (r : List (List Char)) (rows : List (List (List Char))) :
    parseRows (csvEscape s ++ '"' :: tail) true acc r rows =
      parseRows ('"' :: tail) true (acc ++ s) r rows := by
  induction s generalizing acc with
  | nil => simp [csvEscape]
  | cons c s ih =>
    by_cases hc : c = '"'
    · subst hc
      have hshape : csvEscape ('"' :: s) ++ '"' :: tail =
          '"' :: '"' :: (csvEscape s ++ '"' :: tail) := by
        simp [csvEscape]
      rw [hshape, parseRows_quote_escape, ih]
      simp
    · have hshape : csvEscape (c :: s) ++ '"' :: tail =
          c :: (csvEscape s ++ '"' :: tail) := by
        simp [csvEscape, hc]
      rw [hshape, parseRows_other c _ true acc r rows hc (by simp) (by simp), ih]
      simp

/-- C2: round-trip of standard CSV quoting.  For a field value containing
commas, line breaks and quotes, encoding it as a quoted field with every
quote doubled and parsing the result recovers exactly the original field
string as the only field of the only row: a quote toggles quoted mode unless
doubled inside quoted mode (in which case one literal quote is appended and
both characters are consumed), and commas and line breaks inside quoted mode
are literal content. -/
theorem parseCSVText_quoting_roundtrip (s : List Char)
    (h1 : ',' ∈ s) (h2 : '\n' ∈ s) (h3 : '"' ∈ s) :
    parseCSVText (csvEncode s) = [[s]] := by
  unfold parseCSVText csvEncode
  have hs : s ≠ [] := List.ne_nil_of_mem h1
  have htrim : trimL s ≠ [] := trimL_ne_nil_of_mem s ',' h1 (by decide)
  rcases he : csvEscape s ++ ['"'] with _ | ⟨c2, cs2⟩
  · exact absurd he (by simp)
  · rw [parseRows_quote_open, ← he, parseRows_quoted_escape_scan s [] [] [] [],
      parseRows_quote_last]
    simp only [List.nil_append]
    simp only [closeRow, hs, ne_eq, not_false_eq_true, true_or, if_true,
      List.nil_append, List.any_cons, List.any_nil, Bool.or_false]
    rw [if_pos (by simpa [List.length_pos] using htrim)]

theorem parseCSVText_quoting_roundtrip_witness :
    (',' ∈ "a,\n\"b".data) ∧ ('\n' ∈ "a,\n\"b".data) ∧ ('"' ∈ "a,\n\"b".data) ∧
    parseCSVText (csvEncode "a,\n\"b".data) = [["a,\n\"b".data]] :=
  ⟨by decide, by decide, by decide,
    parseCSVText_quoting_roundtrip "a,\n\"b".data (by decide) (by decide) (by decide)⟩

/-- C9: `parseCSVText` is a total pure function (by construction in this
model: a Lean function of the input string alone), and malformed quoting
raises no error: an unterminated quote at end of input makes the whole rest
of the text one quoted field, which is flushed as a best-effort row at end of
input, subject only to the usual blank-row suppression. -/
theorem parseCSVText_unterminated_quote (s : List Char) (h : '"' ∉ s) :
    parseCSVText ('"' :: s) = if trimL s = [] then [] else [[s]] := by
  unfold parseCSVText
  rcases s with _ | ⟨c, cs⟩
  · decide
  · rw [parseRows_quote_open, parseRows_quoted_noquote (c :: cs) [] [] [] h]
    simp only [List.nil_append]
    by_cases htrim : trimL (c :: cs) = []
    · rw [if_pos htrim]
      simp [closeRow, htrim]
    · rw [if_neg htrim]
      simp only [closeRow, ne_eq, reduceCtorEq, not_false_eq_true, true_or,
        if_true, List.nil_append, List.any_cons, List.any_nil, Bool.or_false]
      rw [if_pos (by simpa [List.length_pos] using htrim)]

theorem parseCSVText_unterminated_quote_witness :
    ('"' ∉ "abc,def".data) ∧
    parseCSVText ('"' :: "abc,def".data) =
      (if trimL "abc,def".data = [] then [] else [["abc,def".data]]) :=
  ⟨by decide, parseCSVText_unterminated_quote "abc,def".data (by decide)⟩
